import Mathlib

/-!
# Verification of the Daily news-curation backend

Shallow embedding of the curation pipeline of `backend/app/main.py` and the
service helpers in `backend/app/services/openai_service.py` and
`backend/app/services/newsapi_service.py`, together with proofs of the
spec's testable properties.

External effects (NewsAPI fetches, OpenAI calls, database connections) are
modelled by explicit oracle parameters giving the outcome of each call, so
every function here is a pure, executable Lean definition.
-/

namespace Daily

/-! ## Data model

Articles are Python dicts in the source; optional string fields are
`Option String`, and Python truthiness of `a.get("k")` is `truthy`.
The fresh `str(uuid.uuid4())` identifiers generated at scoring time are
modelled as `Nat` (opaque, pairwise distinct within a run). -/

/-- A raw NewsAPI article record (the fields the pipeline reads). -/
structure RawArticle where
  title : Option String
  description : Option String
  content : Option String
  url : Option String
  image_url : Option String
  deriving Repr, DecidableEq

/-- Python truthiness of `article.get("field")` for an optional string:
`None` and `""` are falsy. -/
def truthy (s : Option String) : Bool := s.getD "" ≠ ""

/-- An analyzed article as built by `analyze_single_article` in
`curate_news` (`main.py` lines 1108–1124): the canonical payload plus the
internal `_relevance_score` / `_is_selected` fields.  Scores are modelled
as rationals. -/
structure AnalyzedArticle where
  id : Nat
  title : String
  summary : Option String
  content : Option String
  url : Option String
  image_url : Option String
  relevance_score : ℚ
  is_selected : Bool
  deriving Repr, DecidableEq

/-- A final article as returned by `curate_news` (`main.py` lines
1249–1260): the internal scoring fields are stripped. -/
structure FinalArticle where
  id : Nat
  title : String
  summary : Option String
  content : Option String
  url : Option String
  image_url : Option String
  deriving Repr, DecidableEq

/-- Field stripping (`main.py` lines 1247–1261): drop `_relevance_score`
and `_is_selected`, keep the payload. -/
def stripInternal (a : AnalyzedArticle) : FinalArticle :=
  { id := a.id, title := a.title, summary := a.summary, content := a.content,
    url := a.url, image_url := a.image_url }

/-! ## Selection policy (`main.py` lines 1174–1236) -/

/-- `analyzed_articles.sort(key=lambda x: x.get("_relevance_score", 0.0),
reverse=True)` (`main.py` line 1174): stable sort, descending score. -/
def sortByScoreDesc (l : List AnalyzedArticle) : List AnalyzedArticle :=
  l.mergeSort (fun a b => decide (b.relevance_score ≤ a.relevance_score))

/-- `actual_limit = max(5, min(10, limit))` (`main.py` line 1181). -/
def actual_limit (limit : Int) : Int := max 5 (min 10 limit)

/-- The fill loop of `main.py` lines 1225–1235: walk the sorted list,
skip articles whose id is already used (the source's
`if used_ids and article_id in used_ids` test — vacuous skip when the used
set is empty), append the rest, stop once `target` articles are present. -/
def fillFrom (target : Nat) :
    List AnalyzedArticle → List AnalyzedArticle → List Nat → List AnalyzedArticle
  | [], curated, _ => curated
  | a :: rest, curated, usedIds =>
    if usedIds ≠ [] ∧ a.id ∈ usedIds then
      fillFrom target rest curated usedIds
    else
      let curated2 := curated ++ [a]
      if target ≤ curated2.length then curated2
      else fillFrom target rest curated2 (a.id :: usedIds)

/-- The selection policy applied to the already-sorted analyzed list
(`main.py` lines 1180–1236): clamp the limit, take explicitly selected
articles first, then fill from the full sorted list. -/
def selectCurated (sorted : List AnalyzedArticle) (limit : Int) :
    List AnalyzedArticle :=
  let actualLimit := actual_limit limit
  let selectedArticles := sorted.filter (·.is_selected)
  let targetCount := min actualLimit.toNat sorted.length
  if targetCount = 0 then []
  else
    let curated := selectedArticles.take targetCount
    if curated.length < targetCount ∧ sorted ≠ [] then
      fillFrom targetCount sorted curated (curated.map (·.id))
    else curated

/-- The post-scoring stage of `curate_news` (`main.py` lines 1164–1261):
with zero successfully analyzed articles the endpoint raises
`HTTPException(500)` (line 1171); otherwise sort, select, and strip the
internal fields.  Errors are the HTTP status code. -/
def curateFromAnalyzed (analyzed : List AnalyzedArticle) (limit : Int) :
    Except Nat (List FinalArticle) :=
  if analyzed.isEmpty then .error 500
  else
    let sorted := sortByScoreDesc analyzed
    .ok ((selectCurated sorted limit).map stripInternal)

/-! ## Relevance scorer (`openai_service.py` lines 37–127)

The outcome of the one LLM call made by `analyze_article`, as seen after
`json.loads`, is modelled by `Except String LLMJson`: `.error e` covers
both a failed API call and unparseable response content (any exception in
the `try` block), `.ok r` a parsed JSON object whose expected fields may
individually be missing (each `Option`). -/

/-- The parsed JSON object of a successful LLM response; each field is
optional because `result.get(..., default)` supplies a default. -/
structure LLMJson where
  selected : Option Bool
  relevance_score : Option ℚ
  reasoning : Option String
  deriving Repr, DecidableEq

/-- The dictionary `analyze_article` returns. -/
structure AnalysisResult where
  selected : Bool
  relevance_score : ℚ
  reasoning : String
  deriving Repr, DecidableEq

/-- The neutral result the `except` branch of `analyze_article` builds
(`openai_service.py` lines 94–100). -/
def neutralResult (e : String) : AnalysisResult :=
  { selected := false, relevance_score := 0,
    reasoning := "Error during analysis: " ++ e }

/-- `OpenAIService.analyze_article` (`openai_service.py` lines 73–100):
on a successful call-and-parse, read the fields with their defaults; on
any failure, return the neutral not-selected result. -/
def analyze_article (call : Except String LLMJson) : AnalysisResult :=
  match call with
  | .ok result =>
    { selected := result.selected.getD false,
      relevance_score := result.relevance_score.getD 0,
      reasoning := result.reasoning.getD "" }
  | .error e =>
    { selected := false,
      relevance_score := 0,
      reasoning := "Error during analysis: " ++ e }

/-- The batching loop shared by `analyze_articles_batch`
(`openai_service.py` lines 119–127) and the scoring loop of `curate_news`
(`main.py` lines 1137–1160): process `l[i:i+bs]` groups in order,
collecting each group's results (in submission order, as
`asyncio.gather` does) before moving on.  The source always calls this
with `bs ≥ 1` (the default batch size is 10; `range` with step 0 would
raise). -/
def processInBatches (bs : Nat) (f : α → β) : List α → List β
  | [] => []
  | a :: rest =>
    (f a :: (rest.take (bs - 1)).map f) ++ processInBatches bs f (rest.drop (bs - 1))
termination_by l => l.length
decreasing_by simp only [List.length_drop, List.length_cons]; omega

/-- `OpenAIService.analyze_articles_batch` (`openai_service.py` lines
102–127). -/
def analyze_articles_batch (calls : List (Except String LLMJson))
    (batchSize : Nat) : List AnalysisResult :=
  processInBatches batchSize analyze_article calls

/-! ## Article sourcing (`main.py` lines 991–1062) -/

/-- `topic = topic or "general"` (`main.py` line 974) happens only in the
branch without a truthy `ai_profile`; with a profile the variable keeps
the value the client passed. -/
def effective_topic (aiProfile : Option String) (topic : Option String) :
    Option String :=
  if truthy aiProfile then topic
  else some (if topic.getD "" = "" then "general" else topic.getD "")

/-- `query_variations` (`main.py` lines 992–1005).  `interestsDict` is
`none` when `interests` is not a dict, and otherwise carries the resolved
`interests.get("keywords") or interests.get("topics") or []` list. -/
def query_variations (aiProfile : Option String)
    (interestsDict : Option (List String)) (topicEff : Option String) :
    List String :=
  if truthy aiProfile ∧ interestsDict.isSome then
    match interestsDict.getD [] with
    | k :: _ => [k]
    | [] => ["news"]
  else if truthy topicEff ∧ topicEff.getD "" ≠ "general" then [topicEff.getD ""]
  else ["news"]

/-- The article list a fetch outcome leaves in the `articles` variable:
a raised exception is caught and leaves the previous value `[]`. -/
def fetchedList (r : Except String (List RawArticle)) : List RawArticle :=
  match r with
  | .ok articles => articles
  | .error _ => []

/-- What the sourcing step did: which search queries were sent, whether
the top-headlines fallback was consulted, and the outcome (`.error` is
the `HTTPException` status code). -/
structure SourcingTrace where
  searchQueries : List String
  headlinesTried : Bool
  result : Except Nat (List RawArticle)
  deriving Repr

/-- The query loop (`main.py` lines 1014–1040): try each variation in
order, breaking on the first non-empty result; an exception or an empty
result moves on to the next variation. -/
def runQueries (searchResult : String → Except String (List RawArticle)) :
    List String → List String × List RawArticle
  | [] => ([], [])
  | q :: rest =>
    let articles := fetchedList (searchResult q)
    if articles.isEmpty then
      let (qs, arts) := runQueries searchResult rest
      (q :: qs, arts)
    else ([q], articles)

/-- `topic in ["new_york", "san_francisco"]` (`main.py` line 1045). -/
def isLocationTopic (topicEff : Option String) : Bool :=
  topicEff = some "new_york" ∨ topicEff = some "san_francisco"

/-- The sourcing step of `curate_news` (`main.py` lines 991–1062): run
the query variations; if no articles came back, fall back to US top
headlines — but only for the two location topics — and raise
`HTTPException(404)` if still empty. -/
def sourceArticles (aiProfile : Option String)
    (interestsDict : Option (List String)) (topic : Option String)
    (searchResult : String → Except String (List RawArticle))
    (headlinesResult : Except String (List RawArticle)) : SourcingTrace :=
  let topicEff := effective_topic aiProfile topic
  let variations := query_variations aiProfile interestsDict topicEff
  let (qs, articles) := runQueries searchResult variations
  if articles.isEmpty then
    if isLocationTopic topicEff then
      let hl := fetchedList headlinesResult
      if hl.isEmpty then ⟨qs, true, .error 404⟩ else ⟨qs, true, .ok hl⟩
    else ⟨qs, false, .error 404⟩
  else ⟨qs, false, .ok articles⟩

/-! ## Pre-filtering (`main.py` lines 1067–1078) -/

/-- `a.get("title") and (a.get("description") or a.get("content"))`. -/
def analyzable (a : RawArticle) : Bool :=
  truthy a.title && (truthy a.description || truthy a.content)

/-- `a.get("title")`. -/
def titled (a : RawArticle) : Bool := truthy a.title

/-- The pre-filter with its title-only fallback capped at 5
(`main.py` lines 1067–1078); the caller returns `[]` when even the
fallback is empty. -/
def preFilterStage (articles : List RawArticle) : List RawArticle :=
  let valid := articles.filter analyzable
  if valid.isEmpty then (articles.filter titled).take 5 else valid

/-! ## Scoring stage of `curate_news` (`main.py` lines 1080–1160)

`analyze_single_article` formats the raw article (`format_article` in
`newsapi_service.py` renames provider fields and never raises), calls
`analyze_article`, and builds the analyzed dict with a freshly generated
`str(uuid.uuid4())` id — modelled by the article's position, which makes
the ids pairwise distinct within a run.  The per-article LLM outcome is
the oracle `llm : Nat → Except String LLMJson`. -/

/-- One `analyze_single_article` call (`main.py` lines 1085–1133) on the
article at position `ia.1`. -/
def scoreOne (llm : Nat → Except String LLMJson) (ia : Nat × RawArticle) :
    AnalyzedArticle :=
  let a := ia.2
  let analysis := analyze_article (llm ia.1)
  { id := ia.1,
    title := if a.title.getD "" = "" then "Untitled" else a.title.getD "",
    summary := a.description,
    content := a.content,
    url := a.url,
    image_url := a.image_url,
    relevance_score := analysis.relevance_score,
    is_selected := analysis.selected }

/-- The batched scoring loop (`main.py` lines 1135–1160), batch size 10. -/
def scoreStage (valid : List RawArticle)
    (llm : Nat → Except String LLMJson) : List AnalyzedArticle :=
  processInBatches 10 (scoreOne llm) valid.enum

/-! ## Image enrichment (`main.py` lines 1270–1341)

The Unsplash-plus-LLM image choice for one article is the oracle
`findImage : Nat → Option String` keyed by article id (`none` covers "no
candidates", "error", and "nothing chosen"); enrichment only touches
articles whose `image_url` is falsy and preserves ids and order. -/

/-- Update one article with a found image, if it needed one. -/
def enrichOne (findImage : Nat → Option String) (a : FinalArticle) :
    FinalArticle :=
  if truthy a.image_url then a
  else
    match findImage a.id with
    | some u => { a with image_url := some u }
    | none => a

/-- The enrichment step over the final list (batches of 5, gathered in
submission order, then merged back by id — order preserving). -/
def enrichImages (findImage : Nat → Option String)
    (arts : List FinalArticle) : List FinalArticle :=
  arts.map (enrichOne findImage)

/-! ## Curated-feed store (`main.py` lines 65–219) -/

/-- One row of `public.user_curated_articles`. -/
structure StoreRow where
  user_id : Nat
  article : FinalArticle
  deriving Repr, DecidableEq

/-- Row formatting on insert (`main.py` lines 106 and 117–147):
`(article.get("title") or "").strip() or "Untitled"`, other fields kept. -/
def _insert_row (userId : Nat) (a : FinalArticle) : StoreRow :=
  let t := a.title.trim
  { user_id := userId,
    article := { a with title := if t = "" then "Untitled" else t } }

/-- `_replace_user_curated_articles` (`main.py` lines 65–154): delete all
rows of the user, then insert the new set (nothing when it is empty). -/
def _replace_user_curated_articles (store : List StoreRow) (userId : Nat)
    (articles : List FinalArticle) : List StoreRow :=
  let cleared := store.filter (fun r => r.user_id ≠ userId)
  if articles.isEmpty then cleared
  else cleared ++ articles.map (_insert_row userId)

/-- The rows the store holds for one user (in recency order, as the
`ORDER BY created_at DESC` read returns them). -/
def rowsFor (store : List StoreRow) (userId : Nat) : List StoreRow :=
  store.filter (fun r => r.user_id = userId)

/-- `_load_user_curated_articles` (`main.py` lines 157–219):
an unparseable user id (`parsedUserId = none`) returns `[]` instead of
raising; otherwise the user's rows are read back. -/
def _load_user_curated_articles (parsedUserId : Option Nat)
    (store : List StoreRow) : List FinalArticle :=
  match parsedUserId with
  | none => []
  | some u => (rowsFor store u).map (·.article)

/-- The `GET /news/curated` handler body after authentication (`main.py`
lines 1381–1394): `loadOutcome` is the outcome of the database load
(`.error` is any raised exception), and any failure yields `[]`. -/
def get_curated_news (loadOutcome : Except String (List FinalArticle)) :
    List FinalArticle :=
  match loadOutcome with
  | .ok articles => if articles.isEmpty then [] else articles
  | .error _ => []

/-! ## The full curation run (`main.py` lines 913–1366) -/

/-- Outcomes of the external calls one curation run makes. -/
structure CurateDeps where
  searchResult : String → Except String (List RawArticle)
  headlinesResult : Except String (List RawArticle)
  llmResult : Nat → Except String LLMJson
  imageResult : Nat → Option String
  saveOk : Bool

/-- One end-to-end `curate_news` run for `userId` against `store`:
source, pre-filter (with its early `return []`), score, select, strip,
enrich, persist (a failed write is caught: the store is unchanged and
the response is still returned).  Returns the HTTP response and the
resulting store. -/
def curate_news (aiProfile : Option String)
    (interestsDict : Option (List String)) (topic : Option String)
    (limit : Int) (deps : CurateDeps) (store : List StoreRow)
    (userId : Nat) : Except Nat (List FinalArticle) × List StoreRow :=
  let tr := sourceArticles aiProfile interestsDict topic
    deps.searchResult deps.headlinesResult
  match tr.result with
  | .error code => (.error code, store)
  | .ok articles =>
    let valid := preFilterStage articles
    if valid.isEmpty then (.ok [], store)
    else
      let analyzed := scoreStage valid deps.llmResult
      match curateFromAnalyzed analyzed limit with
      | .error code => (.error code, store)
      | .ok stripped =>
        let finalArts := enrichImages deps.imageResult stripped
        let store2 :=
          if deps.saveOk then _replace_user_curated_articles store userId finalArts
          else store
        (.ok finalArts, store2)

/-! ## Sample inputs used by the witnesses -/

/-- A sample analyzed article. -/
def sampleAnalyzedArticle (id : Nat) (score : ℚ) (sel : Bool) : AnalyzedArticle :=
  { id := id, title := "Sample headline", summary := some "s", content := none,
    url := some "https://example.com", image_url := none,
    relevance_score := score, is_selected := sel }

/-- Twelve scored articles: the first three selected with descending
scores, the rest unselected with lower scores (the spec's own scenario). -/
def sampleAnalyzed : List AnalyzedArticle :=
  (List.range 12).map (fun i =>
    sampleAnalyzedArticle i
      (if i < 3 then mkRat (9 - (i : Int)) 10 else mkRat (40 - (i : Int)) 100)
      (i < 3))

/-- The list the selection stage computes on `sampleAnalyzed`. -/
def sampleCurated : List FinalArticle :=
  (selectCurated (sortByScoreDesc sampleAnalyzed) 10).map stripInternal

/-- A sample raw article with full fields. -/
def sampleRaw : RawArticle :=
  { title := some "Big news", description := some "d", content := some "c",
    url := some "https://example.com/a", image_url := none }

/-- A sample raw article having only a title. -/
def sampleRawTitleOnly : RawArticle :=
  { title := some "Only a title", description := none, content := none,
    url := none, image_url := none }

/-- A sample final article. -/
def sampleFinal (id : Nat) : FinalArticle :=
  { id := id, title := "Stored headline", summary := none, content := none,
    url := none, image_url := none }

/-- A sample raw article with a description but no title (disqualified by
both the pre-filter and the title-only fallback). -/
def sampleUntitledRaw : RawArticle :=
  { title := none, description := some "description without a headline",
    content := none, url := none, image_url := none }

/-- Three successful LLM call outcomes for a sample batch. -/
def sampleCalls : List (Except String LLMJson) :=
  [Except.ok ⟨some true, some 1, some "on topic"⟩,
   Except.ok ⟨some false, some 0, some "off topic"⟩,
   Except.ok ⟨none, none, none⟩]

/-- Sample dependencies for a run whose single search finds only the
untitled article. -/
def sampleDeps : CurateDeps :=
  { searchResult := fun _ => Except.ok [sampleUntitledRaw],
    headlinesResult := Except.ok [],
    llmResult := fun _ => Except.error "unused",
    imageResult := fun _ => none,
    saveOk := true }

/-! ## Lemmas about the sort and the fill loop -/

/-- Descending relevance order, the order established by line 1174. -/
def ScoreDesc (l : List AnalyzedArticle) : Prop :=
  l.Sorted (fun a b => b.relevance_score ≤ a.relevance_score)

theorem sortByScoreDesc_perm (l : List AnalyzedArticle) :
    List.Perm (sortByScoreDesc l) l :=
  List.mergeSort_perm l _

theorem sortByScoreDesc_sorted (l : List AnalyzedArticle) :
    ScoreDesc (sortByScoreDesc l) := by
  have h := @List.sorted_mergeSort AnalyzedArticle
    (fun a b => decide (b.relevance_score ≤ a.relevance_score))
    (fun a b c h₁ h₂ => by
      simp only [decide_eq_true_eq] at *
      exact le_trans h₂ h₁)
    (fun a b => by
      simp only [Bool.or_eq_true, decide_eq_true_eq]
      exact le_total b.relevance_score a.relevance_score)
    l
  exact h.imp (fun hab => by simpa using hab)

theorem sortByScoreDesc_length (l : List AnalyzedArticle) :
    (sortByScoreDesc l).length = l.length :=
  (sortByScoreDesc_perm l).length_eq

theorem sortByScoreDesc_nodup_ids (l : List AnalyzedArticle)
    (h : (l.map (·.id)).Nodup) : ((sortByScoreDesc l).map (·.id)).Nodup :=
  (((sortByScoreDesc_perm l).map (·.id)).symm).nodup h

/-- A list of distinct values that is contained in `u` is no longer
than `u`. -/
theorem nodup_subset_length_le {m u : List Nat} (hnd : m.Nodup)
    (hsub : ∀ x ∈ m, x ∈ u) : m.length ≤ u.length := by
  calc m.length = m.toFinset.card := (List.toFinset_card_of_nodup hnd).symm
    _ ≤ u.toFinset.card := by
        apply Finset.card_le_card
        intro x hx
        rw [List.mem_toFinset] at *
        exact hsub x hx
    _ ≤ u.length := u.toFinset_card_le

/-- Splitting a count over a predicate and its complement. -/
theorem countP_add_countP_not (p : AnalyzedArticle → Bool) (l : List AnalyzedArticle) :
    l.countP p + l.countP (fun a => !p a) = l.length := by
  induction l with
  | nil => simp
  | cons a rest ih =>
    cases h : p a <;> simp [List.countP_cons, h] <;> omega

/-- Among articles with pairwise-distinct ids, at most `u.length` of them
have an id in `u`. -/
theorem countP_mem_le (l : List AnalyzedArticle) (u : List Nat)
    (hnd : (l.map (·.id)).Nodup) :
    l.countP (fun a => decide (a.id ∈ u)) ≤ u.length := by
  rw [List.countP_eq_length_filter]
  have h1 : ((l.filter (fun a => decide (a.id ∈ u))).map (·.id)).Nodup :=
    ((List.filter_sublist l).map (·.id)).nodup hnd
  have h2 : ∀ x ∈ (l.filter (fun a => decide (a.id ∈ u))).map (·.id), x ∈ u := by
    intro x hx
    simp only [List.mem_map, List.mem_filter, decide_eq_true_eq] at hx
    obtain ⟨a, ⟨_, ha⟩, rfl⟩ := hx
    exact ha
  have h3 := nodup_subset_length_le h1 h2
  simpa using h3

/-- Length of the fill loop's result: it reaches `t` unless the supply of
not-yet-used articles runs out first. -/
theorem fillFrom_length (s : List AnalyzedArticle) :
    ∀ (c : List AnalyzedArticle) (u : List Nat) (t : Nat),
      c.length < t → ((s.map (·.id)).Nodup) →
      (fillFrom t s c u).length
        = min t (c.length + s.countP (fun a => !decide (a.id ∈ u))) := by
  induction s with
  | nil =>
    intro c u t hlt _
    simp only [fillFrom, List.countP_nil, Nat.add_zero]
    omega
  | cons a rest ih =>
    intro c u t hlt hnd
    have hndr : (rest.map (·.id)).Nodup := (List.nodup_cons.mp (by simpa using hnd)).2
    have hamem : a.id ∉ rest.map (·.id) := (List.nodup_cons.mp (by simpa using hnd)).1
    simp only [fillFrom]
    by_cases hskip : u ≠ [] ∧ a.id ∈ u
    · rw [if_pos hskip]
      rw [ih c u t hlt hndr]
      have hdec : (decide (a.id ∈ u)) = true := by simpa using hskip.2
      simp [List.countP_cons, hdec]
    · rw [if_neg hskip]
      have hfresh : a.id ∉ u := by
        by_cases hu : u = []
        · subst hu; simp
        · intro hmem; exact hskip ⟨hu, hmem⟩
      have hdec : (decide (a.id ∈ u)) = false := by simpa using hfresh
      by_cases hbreak : t ≤ (c ++ [a]).length
      · rw [if_pos hbreak]
        simp only [List.length_append, List.length_singleton] at hbreak ⊢
        simp [List.countP_cons, hdec]
        omega
      · rw [if_neg hbreak]
        simp only [List.length_append, List.length_singleton] at hbreak
        rw [ih (c ++ [a]) (a.id :: u) t (by simpa using hbreak) hndr]
        have hsame : rest.countP (fun b => !decide (b.id ∈ a.id :: u))
            = rest.countP (fun b => !decide (b.id ∈ u)) := by
          apply List.countP_congr
          intro b hb
          have hne : b.id ≠ a.id := by
            intro he
            exact hamem (he ▸ List.mem_map_of_mem (·.id) hb)
          simp [List.mem_cons, hne]
        rw [hsame]
        simp [List.countP_cons, hdec]
        omega

/-- Structure of the fill loop's result: it appends to `curated` a
subsequence of the supply list none of whose ids was already used. -/
theorem fillFrom_structure (s : List AnalyzedArticle) :
    ∀ (c : List AnalyzedArticle) (u : List Nat),
      ∃ F, fillFrom t s c u = c ++ F ∧ F.Sublist s ∧ ∀ a ∈ F, a.id ∉ u := by
  induction s with
  | nil =>
    intro c u
    exact ⟨[], by simp [fillFrom], List.Sublist.refl _, by simp⟩
  | cons a rest ih =>
    intro c u
    simp only [fillFrom]
    by_cases hskip : u ≠ [] ∧ a.id ∈ u
    · rw [if_pos hskip]
      obtain ⟨F, he, hsub, hu⟩ := ih c u
      exact ⟨F, he, hsub.cons a, hu⟩
    · rw [if_neg hskip]
      have hfresh : a.id ∉ u := by
        by_cases hu : u = []
        · subst hu; simp
        · intro hmem; exact hskip ⟨hu, hmem⟩
      by_cases hbreak : t ≤ (c ++ [a]).length
      · rw [if_pos hbreak]
        refine ⟨[a], rfl, ?_, ?_⟩
        · exact List.Sublist.cons₂ a (List.nil_sublist rest)
        · intro b hb
          rw [List.mem_singleton] at hb
          subst hb
          exact hfresh
      · rw [if_neg hbreak]
        obtain ⟨F, he, hsub, hu⟩ := ih (c ++ [a]) (a.id :: u)
        refine ⟨a :: F, by simpa using he, List.Sublist.cons₂ a hsub, ?_⟩
        intro b hb
        rcases List.mem_cons.mp hb with rfl | hb
        · exact hfresh
        · intro hmem
          exact hu b hb (List.mem_cons_of_mem _ hmem)

/-- Length of the selection-policy result: always `min(clamp(limit,5,10), N)`
where `N` is the number of (sorted) analyzed articles, provided the
freshly generated article ids are pairwise distinct. -/
theorem selectCurated_length (sorted : List AnalyzedArticle) (limit : Int)
    (hnd : (sorted.map (·.id)).Nodup) :
    (selectCurated sorted limit).length
      = min (actual_limit limit).toNat sorted.length := by
  simp only [selectCurated]
  set t := min (actual_limit limit).toNat sorted.length with ht
  set S := sorted.filter (fun a => a.is_selected) with hS
  set c := S.take t with hc
  have hclen : c.length = min t S.length := by simp [hc]
  by_cases ht0 : t = 0
  · rw [if_pos ht0]
    simp [ht0]
  · rw [if_neg ht0]
    by_cases hfill : c.length < t ∧ sorted ≠ []
    · rw [if_pos hfill]
      rw [fillFrom_length sorted c (c.map (·.id)) t hfill.1 hnd]
      have hsplit := countP_add_countP_not
        (fun a => decide (a.id ∈ c.map (·.id))) sorted
      have hle := countP_mem_le sorted (c.map (·.id)) hnd
      have htN : t ≤ sorted.length := Nat.min_le_right _ _
      have humap : (c.map (·.id)).length = c.length := by simp
      omega
    · rw [if_neg hfill]
      by_cases hse : sorted = []
      · rw [hse] at ht
        simp at ht
        exact absurd ht ht0
      · have hcl : ¬c.length < t := fun h => hfill ⟨h, hse⟩
        omega

/-- Structure of the selection-policy result: the explicitly selected
articles that fit the target come first, followed by fill-in articles
taken from the sorted list whose ids were not already used. -/
theorem selectCurated_structure (sorted : List AnalyzedArticle) (limit : Int) :
    ∃ F,
      selectCurated sorted limit
        = (sorted.filter (fun a => a.is_selected)).take
            (min (actual_limit limit).toNat sorted.length) ++ F
      ∧ F.Sublist sorted
      ∧ ∀ a ∈ F,
          a.id ∉ ((sorted.filter (fun a => a.is_selected)).take
            (min (actual_limit limit).toNat sorted.length)).map (·.id) := by
  simp only [selectCurated]
  set t := min (actual_limit limit).toNat sorted.length with ht
  set S := sorted.filter (fun a => a.is_selected) with hS
  set c := S.take t with hc
  by_cases ht0 : t = 0
  · rw [if_pos ht0]
    refine ⟨[], ?_, List.nil_sublist _, by simp⟩
    simp [hc, ht0]
  · rw [if_neg ht0]
    by_cases hfill : c.length < t ∧ sorted ≠ []
    · rw [if_pos hfill]
      exact fillFrom_structure sorted c (c.map (·.id))
    · rw [if_neg hfill]
      exact ⟨[], by simp, List.nil_sublist _, by simp⟩

/-- `stripInternal` keeps the id. -/
theorem stripInternal_id (a : AnalyzedArticle) : (stripInternal a).id = a.id := rfl

/-- The curated prefix (take of a filter of the sorted list) is a
subsequence of the sorted list. -/
theorem take_filter_sublist (sorted : List AnalyzedArticle) (t : Nat) :
    ((sorted.filter (fun a => a.is_selected)).take t).Sublist sorted :=
  (List.take_sublist _ _).trans (List.filter_sublist sorted)

/-- The chunked batch loop computes exactly the elementwise map: batching
affects scheduling only, never which result belongs to which input. -/
theorem processInBatches_eq_map (bs : Nat) (f : α → β) (l : List α) :
    processInBatches bs f l = l.map f := by
  have key : ∀ (n : Nat) (l : List α), l.length ≤ n →
      processInBatches bs f l = l.map f := by
    intro n
    induction n with
    | zero =>
      intro l hl
      have : l = [] := List.length_eq_zero.mp (Nat.le_zero.mp hl)
      subst this
      simp [processInBatches]
    | succ n ih =>
      intro l hl
      match l with
      | [] => simp [processInBatches]
      | a :: rest =>
        rw [processInBatches]
        rw [ih (rest.drop (bs - 1)) (by simp at hl ⊢; omega)]
        simp only [List.map_take, List.map_drop, List.map_cons, List.cons_append]
        rw [List.take_append_drop]
  exact key l.length l (Nat.le_refl _)

/-- The scoring stage is the elementwise scoring of the pre-filtered
candidates, paired with their fresh (positional) ids. -/
theorem scoreStage_eq_map (valid : List RawArticle)
    (llm : Nat → Except String LLMJson) :
    scoreStage valid llm = valid.enum.map (scoreOne llm) :=
  processInBatches_eq_map 10 (scoreOne llm) valid.enum

/-! ## Claim C1 — selection size -/

/-- C1 counterexample: with zero successfully scored articles
`curate_news` raises `HTTPException(500)` (`main.py` line 1171) — it does
not return a zero-length result. -/
theorem C1_zero_scored_counterexample :
    curateFromAnalyzed [] 10 = Except.error 500
    ∧ curateFromAnalyzed [] 10 ≠ Except.ok [] := by
  refine ⟨rfl, ?_⟩
  intro h
  exact Except.noConfusion h

/-- C1 (amended): for every curation run in which `N` articles were
scored with requested limit `L`, the returned list has length exactly
`min(clamp(L,5,10), N)` when `N > 0`; when `N = 0` the run raises an
HTTP 500 error rather than returning a zero-length result.  (Ids are the
freshly generated per-run identifiers, hence pairwise distinct.) -/
theorem C1_selection_size (analyzed : List AnalyzedArticle) (limit : Int)
    (hnd : (analyzed.map (·.id)).Nodup) :
    (analyzed ≠ [] → ∃ arts,
        curateFromAnalyzed analyzed limit = Except.ok arts ∧
        arts.length = min (actual_limit limit).toNat analyzed.length)
    ∧ (analyzed = [] → curateFromAnalyzed analyzed limit = Except.error 500) := by
  constructor
  · intro hne
    refine ⟨(selectCurated (sortByScoreDesc analyzed) limit).map stripInternal, ?_, ?_⟩
    · unfold curateFromAnalyzed
      rw [if_neg (by simpa using hne)]
    · rw [List.length_map,
        selectCurated_length _ _ (sortByScoreDesc_nodup_ids _ hnd),
        sortByScoreDesc_length]
  · intro he
    subst he
    rfl

/-- C1 witness: the amended theorem applied to twelve scored articles and
limit 7. -/
theorem C1_selection_size_witness :
    ∃ arts, curateFromAnalyzed sampleAnalyzed 7 = Except.ok arts ∧
      arts.length = min (actual_limit 7).toNat sampleAnalyzed.length :=
  (C1_selection_size sampleAnalyzed 7 (by decide)).1 (by decide)

/-! ## Claim C2 — selected-first ordering -/

/-- C2: in every curation result, the explicitly selected articles that
fit within the target count form the prefix (in descending
relevance-score order), and the fill-in articles that follow are drawn in
descending relevance order from the full sorted list, skipping articles
already included. -/
theorem C2_selected_first (analyzed : List AnalyzedArticle) (limit : Int)
    (arts : List FinalArticle)
    (h : curateFromAnalyzed analyzed limit = Except.ok arts) :
    ∃ S F,
      S = ((sortByScoreDesc analyzed).filter (fun a => a.is_selected)).take
            (min (actual_limit limit).toNat analyzed.length)
      ∧ arts = (S ++ F).map stripInternal
      ∧ ScoreDesc S ∧ ScoreDesc F
      ∧ F.Sublist (sortByScoreDesc analyzed)
      ∧ ∀ a ∈ F, a.id ∉ S.map (·.id) := by
  unfold curateFromAnalyzed at h
  by_cases hne : analyzed.isEmpty
  · rw [if_pos hne] at h
    exact Except.noConfusion h
  · rw [if_neg hne] at h
    simp only [Except.ok.injEq] at h
    subst h
    obtain ⟨F, hEq, hSub, hUsed⟩ :=
      selectCurated_structure (sortByScoreDesc analyzed) limit
    rw [sortByScoreDesc_length] at hEq hUsed
    refine ⟨_, F, rfl, by rw [hEq], ?_, ?_, hSub, hUsed⟩
    · exact List.Pairwise.sublist (take_filter_sublist _ _)
        (sortByScoreDesc_sorted analyzed)
    · exact List.Pairwise.sublist hSub (sortByScoreDesc_sorted analyzed)

/-- C2 witness: the theorem applied to the twelve-article sample run. -/
theorem C2_selected_first_witness :
    ∃ S F,
      S = ((sortByScoreDesc sampleAnalyzed).filter (fun a => a.is_selected)).take
            (min (actual_limit 10).toNat sampleAnalyzed.length)
      ∧ sampleCurated = (S ++ F).map stripInternal
      ∧ ScoreDesc S ∧ ScoreDesc F
      ∧ F.Sublist (sortByScoreDesc sampleAnalyzed)
      ∧ ∀ a ∈ F, a.id ∉ S.map (·.id) :=
  C2_selected_first sampleAnalyzed 10 sampleCurated rfl

/-! ## Claim C3 — no duplicate articles -/

/-- C3: the final returned list never contains the same article twice,
also when the fill-in step runs — the freshly generated per-run ids stay
pairwise distinct through selection and fill. -/
theorem C3_no_duplicates (analyzed : List AnalyzedArticle) (limit : Int)
    (arts : List FinalArticle) (hnd : (analyzed.map (·.id)).Nodup)
    (h : curateFromAnalyzed analyzed limit = Except.ok arts) :
    (arts.map (·.id)).Nodup := by
  unfold curateFromAnalyzed at h
  by_cases hne : analyzed.isEmpty
  · rw [if_pos hne] at h
    exact Except.noConfusion h
  · rw [if_neg hne] at h
    simp only [Except.ok.injEq] at h
    subst h
    have hnds : ((sortByScoreDesc analyzed).map (·.id)).Nodup :=
      sortByScoreDesc_nodup_ids _ hnd
    obtain ⟨F, hEq, hSub, hUsed⟩ :=
      selectCurated_structure (sortByScoreDesc analyzed) limit
    rw [hEq]
    have hid : (((((sortByScoreDesc analyzed).filter (fun a => a.is_selected)).take
          (min (actual_limit limit).toNat (sortByScoreDesc analyzed).length)
          ++ F).map stripInternal).map (·.id))
        = (((sortByScoreDesc analyzed).filter (fun a => a.is_selected)).take
          (min (actual_limit limit).toNat (sortByScoreDesc analyzed).length)).map (·.id)
          ++ F.map (·.id) := by
      simp [List.map_map, Function.comp_def, stripInternal_id]
    rw [hid]
    rw [List.nodup_append]
    refine ⟨?_, ?_, ?_⟩
    · exact ((take_filter_sublist _ _).map (·.id)).nodup hnds
    · exact (hSub.map (·.id)).nodup hnds
    · intro x hxS hxF
      simp only [List.mem_map] at hxF
      obtain ⟨a, haF, rfl⟩ := hxF
      exact hUsed a haF hxS

/-- C3 witness: the theorem applied to the twelve-article sample run. -/
theorem C3_no_duplicates_witness : (sampleCurated.map (·.id)).Nodup :=
  C3_no_duplicates sampleAnalyzed 10 sampleCurated (by decide) rfl

/-! ## Claim C4 — per-article failure isolation -/

/-- C4: `analyze_article` converts any LLM-call or parse failure into the
neutral `{selected: false, relevance_score: 0.0, reasoning: <error
text>}` result instead of propagating it, and in a batch of K articles a
failure on article `i` leaves the other K−1 results unchanged while
article `i` yields the neutral result. -/
theorem C4_scoring_isolation :
    (∀ e : String, analyze_article (Except.error e) = neutralResult e)
    ∧ ∀ (calls : List (Except String LLMJson)) (bs i : Nat) (e : String),
        i < calls.length →
        (∀ j, j ≠ i →
          (analyze_articles_batch (calls.set i (Except.error e)) bs)[j]?
            = (analyze_articles_batch calls bs)[j]?)
        ∧ (analyze_articles_batch (calls.set i (Except.error e)) bs)[i]?
            = some (neutralResult e) := by
  refine ⟨fun e => rfl, ?_⟩
  intro calls bs i e hi
  unfold analyze_articles_batch
  rw [processInBatches_eq_map, processInBatches_eq_map, List.map_set]
  constructor
  · intro j hj
    exact List.getElem?_set_ne (fun h => hj h.symm)
  · rw [List.getElem?_set_self (by simpa using hi)]
    rfl

/-- C4 witness: in a batch of three successful calls, failing the middle
one changes neither neighbour and yields the neutral result itself. -/
theorem C4_scoring_isolation_witness :
    ((analyze_articles_batch (sampleCalls.set 1 (Except.error "boom")) 10)[0]?
        = (analyze_articles_batch sampleCalls 10)[0]?)
    ∧ ((analyze_articles_batch (sampleCalls.set 1 (Except.error "boom")) 10)[2]?
        = (analyze_articles_batch sampleCalls 10)[2]?)
    ∧ ((analyze_articles_batch (sampleCalls.set 1 (Except.error "boom")) 10)[1]?
        = some (neutralResult "boom")) :=
  ⟨(C4_scoring_isolation.2 sampleCalls 10 1 "boom" (by decide)).1 0 (by decide),
   (C4_scoring_isolation.2 sampleCalls 10 1 "boom" (by decide)).1 2 (by decide),
   (C4_scoring_isolation.2 sampleCalls 10 1 "boom" (by decide)).2⟩

/-! ## Claim C7 — relevance-score range -/

/-- C7 counterexample: `analyze_article` does not clamp the score — an
LLM response carrying `relevance_score = 2` is passed through unchanged,
outside `[0,1]`. -/
theorem C7_range_counterexample :
    (analyze_article (Except.ok ⟨some true, some 2, some "r"⟩)).relevance_score = 2
    ∧ ¬((analyze_article
        (Except.ok ⟨some true, some 2, some "r"⟩)).relevance_score ≤ 1) :=
  ⟨rfl, by decide⟩

/-- C7 (amended): the `relevance_score` of a scored article defaults to
`0.0` on scoring failure or a missing field, and otherwise equals the
LLM-reported value unchanged (no clamping); it therefore lies in `[0,1]`
exactly when the LLM-reported value does. -/
theorem C7_score_range (call : Except String LLMJson)
    (h : ∀ r, call = Except.ok r →
      ∀ q, r.relevance_score = some q → 0 ≤ q ∧ q ≤ 1) :
    0 ≤ (analyze_article call).relevance_score
    ∧ (analyze_article call).relevance_score ≤ 1 := by
  match call with
  | .error e => simp [analyze_article]
  | .ok r =>
    cases hr : r.relevance_score with
    | none => simp [analyze_article, hr]
    | some q =>
      have hq := h r rfl q hr
      simpa [analyze_article, hr] using hq

/-- C7 witness: a response with score 1 stays in range. -/
theorem C7_score_range_witness :
    0 ≤ (analyze_article (Except.ok ⟨some true, some 1, some "r"⟩)).relevance_score
    ∧ (analyze_article
        (Except.ok ⟨some true, some 1, some "r"⟩)).relevance_score ≤ 1 :=
  C7_score_range _ (by
    rintro r hrr q hq
    cases hrr
    cases hq
    exact ⟨by decide, by decide⟩)

/-! ## Claim C5 — sourcing and the top-headlines fallback -/

/-- The query-variations list built by `main.py` lines 991–1005 always
holds exactly one query. -/
theorem query_variations_singleton (p : Option String)
    (i : Option (List String)) (t : Option String) :
    ∃ q, query_variations p i t = [q] := by
  unfold query_variations
  by_cases h1 : truthy p ∧ i.isSome
  · rw [if_pos h1]
    cases hi : i.getD [] with
    | nil => exact ⟨"news", rfl⟩
    | cons k ks => exact ⟨k, rfl⟩
  · rw [if_neg h1]
    by_cases h2 : truthy t ∧ t.getD "" ≠ "general"
    · rw [if_pos h2]
      exact ⟨_, rfl⟩
    · rw [if_neg h2]
      exact ⟨"news", rfl⟩

/-- The query loop on a single variation: that query is sent, and the
loop ends with whatever it yielded. -/
theorem runQueries_single (searchResult : String → Except String (List RawArticle))
    (q : String) :
    runQueries searchResult [q] = ([q], fetchedList (searchResult q)) := by
  by_cases h : (fetchedList (searchResult q)).isEmpty
  · have he : fetchedList (searchResult q) = [] := by simpa using h
    simp [runQueries, h, he]
  · simp [runQueries, h]

/-- C5 counterexample: with topic "technology" and a search that returns
zero candidates, the orchestrator does not consult the top-headlines
fallback (even though it would have articles) and reports 404 at once —
the retry exists only for the two location topics. -/
theorem C5_no_fallback_counterexample :
    (sourceArticles none none (some "technology") (fun _ => Except.ok [])
        (Except.ok [sampleRaw])).headlinesTried = false
    ∧ (sourceArticles none none (some "technology") (fun _ => Except.ok [])
        (Except.ok [sampleRaw])).result = Except.error 404 :=
  ⟨rfl, rfl⟩

/-- C5 (amended): every curation run sends exactly one search query;
when it yields zero raw candidates, the locale-scoped top-headlines
retry happens if and only if the effective topic is `new_york` or
`san_francisco`; and the upstream-empty 404 is reported exactly when the
single search was empty and the fallback — in the runs that consult
it — was empty too. -/
theorem C5_single_query_fallback (aiProfile : Option String)
    (interestsDict : Option (List String)) (topic : Option String)
    (searchResult : String → Except String (List RawArticle))
    (headlinesResult : Except String (List RawArticle)) :
    ∃ q,
      query_variations aiProfile interestsDict
          (effective_topic aiProfile topic) = [q]
      ∧ (sourceArticles aiProfile interestsDict topic searchResult
          headlinesResult).searchQueries = [q]
      ∧ ((sourceArticles aiProfile interestsDict topic searchResult
            headlinesResult).headlinesTried = true
          ↔ fetchedList (searchResult q) = []
            ∧ isLocationTopic (effective_topic aiProfile topic) = true)
      ∧ ((sourceArticles aiProfile interestsDict topic searchResult
            headlinesResult).result = Except.error 404
          ↔ fetchedList (searchResult q) = []
            ∧ (isLocationTopic (effective_topic aiProfile topic) = true →
                fetchedList headlinesResult = [])) := by
  obtain ⟨q, hq⟩ := query_variations_singleton aiProfile interestsDict
    (effective_topic aiProfile topic)
  refine ⟨q, hq, ?_⟩
  simp only [sourceArticles]
  rw [hq, runQueries_single]
  by_cases hA : (fetchedList (searchResult q)).isEmpty
  · have heA : fetchedList (searchResult q) = [] := by simpa using hA
    by_cases hL : isLocationTopic (effective_topic aiProfile topic)
    · by_cases hH : (fetchedList headlinesResult).isEmpty
      · have heH : fetchedList headlinesResult = [] := by simpa using hH
        simp [hA, hL, hH, heA, heH]
      · have heH : fetchedList headlinesResult ≠ [] := by simpa using hH
        simp [hA, hL, hH, heA, heH]
    · have hLf : isLocationTopic (effective_topic aiProfile topic) = false := by
        simpa using hL
      simp [hA, hLf, heA]
  · have heA : fetchedList (searchResult q) ≠ [] := by simpa using hA
    simp [hA, heA]

/-- C5 witness: the amended theorem at a profile-less run on topic
`new_york` whose search is empty and whose headlines fallback has one
article. -/
theorem C5_single_query_fallback_witness :
    ∃ q,
      query_variations none none
          (effective_topic none (some "new_york")) = [q]
      ∧ (sourceArticles none none (some "new_york") (fun _ => Except.ok [])
          (Except.ok [sampleRaw])).searchQueries = [q]
      ∧ ((sourceArticles none none (some "new_york") (fun _ => Except.ok [])
            (Except.ok [sampleRaw])).headlinesTried = true
          ↔ fetchedList (Except.ok []) = []
            ∧ isLocationTopic (effective_topic none (some "new_york")) = true)
      ∧ ((sourceArticles none none (some "new_york") (fun _ => Except.ok [])
            (Except.ok [sampleRaw])).result = Except.error 404
          ↔ fetchedList (Except.ok []) = []
            ∧ (isLocationTopic (effective_topic none (some "new_york")) = true →
                fetchedList (Except.ok [sampleRaw]) = [])) :=
  C5_single_query_fallback none none (some "new_york")
    (fun _ => Except.ok []) (Except.ok [sampleRaw])

/-! ## Claim C6 — pre-filter fallback -/

/-- C6: when pre-filtering would leave zero candidates, the run falls
back to title-only candidates capped at 5 instead of failing; and a run
whose pre-filter stage ends up empty returns the empty list (HTTP 200),
not an error, leaving the store untouched. -/
theorem C6_prefilter_fallback (articles : List RawArticle)
    (h : articles.filter analyzable = []) :
    preFilterStage articles = (articles.filter titled).take 5
    ∧ (preFilterStage articles).length ≤ 5
    ∧ ∀ (aiProfile : Option String) (interestsDict : Option (List String))
        (topic : Option String) (limit : Int) (deps : CurateDeps)
        (store : List StoreRow) (userId : Nat),
        (sourceArticles aiProfile interestsDict topic deps.searchResult
            deps.headlinesResult).result = Except.ok articles →
        preFilterStage articles = [] →
        curate_news aiProfile interestsDict topic limit deps store userId
          = (Except.ok [], store) := by
  have hstage : preFilterStage articles = (articles.filter titled).take 5 := by
    simp only [preFilterStage, h]
    rfl
  refine ⟨hstage, ?_, ?_⟩
  · rw [hstage]
    exact List.length_take_le 5 _
  · intro aiProfile interestsDict topic limit deps store userId hsrc hpre
    simp only [curate_news]
    rw [hsrc]
    simp [hpre]

/-- C6 witness: a run whose only raw candidate has no title falls back,
finds nothing, and returns the empty list with the store untouched. -/
theorem C6_prefilter_fallback_witness :
    preFilterStage [sampleUntitledRaw]
      = ([sampleUntitledRaw].filter titled).take 5
    ∧ (preFilterStage [sampleUntitledRaw]).length ≤ 5
    ∧ curate_news none none (some "general") 10 sampleDeps [] 1
        = (Except.ok [], []) :=
  ⟨(C6_prefilter_fallback [sampleUntitledRaw] (by decide)).1,
   (C6_prefilter_fallback [sampleUntitledRaw] (by decide)).2.1,
   (C6_prefilter_fallback [sampleUntitledRaw] (by decide)).2.2
     none none (some "general") 10 sampleDeps [] 1 rfl (by decide)⟩

/-! ## Claim C8 — persistence failure is non-fatal -/

/-- C8: the response of a curation run does not depend on whether the
curated-feed write succeeded — the caller receives the computed articles
either way — and a failed write leaves the store unchanged. -/
theorem C8_persistence_nonfatal (aiProfile : Option String)
    (interestsDict : Option (List String)) (topic : Option String)
    (limit : Int) (deps : CurateDeps) (store : List StoreRow) (userId : Nat) :
    (curate_news aiProfile interestsDict topic limit
        { deps with saveOk := false } store userId).1
      = (curate_news aiProfile interestsDict topic limit
        { deps with saveOk := true } store userId).1
    ∧ (curate_news aiProfile interestsDict topic limit
        { deps with saveOk := false } store userId).2 = store := by
  obtain ⟨sr, hr, lr, ir, sv⟩ := deps
  simp only [curate_news]
  cases hres : (sourceArticles aiProfile interestsDict topic sr hr).result with
  | error code => simp [hres]
  | ok articles =>
    simp only [hres]
    by_cases hv : (preFilterStage articles).isEmpty
    · simp [hv]
    · simp only [hv, Bool.false_eq_true, if_false]
      cases hcur : curateFromAnalyzed
          (scoreStage (preFilterStage articles) lr) limit with
      | error code => simp [hcur]
      | ok stripped => simp [hcur]

/-! ## Claim C9 — replace-all persistence semantics -/

/-- Rows the store holds for the user right after a replace: exactly the
inserted formatting of the new article set. -/
theorem rowsFor_replace (store : List StoreRow) (u : Nat)
    (X : List FinalArticle) :
    rowsFor (_replace_user_curated_articles store u X) u
      = X.map (_insert_row u) := by
  simp only [_replace_user_curated_articles, rowsFor]
  have hnone : (store.filter (fun r => r.user_id ≠ u)).filter
      (fun r => r.user_id = u) = [] := by
    apply List.filter_eq_nil_iff.mpr
    intro r hr
    have := (List.mem_filter.mp hr).2
    simp at this ⊢
    exact this
  by_cases hX : X.isEmpty
  · have he : X = [] := by simpa using hX
    subst he
    simp [hnone]
  · simp only [hX, Bool.false_eq_true, if_false]
    rw [List.filter_append, hnone, List.nil_append]
    apply List.filter_eq_self.mpr
    intro r hr
    obtain ⟨a, _, rfl⟩ := List.mem_map.mp hr
    simp [_insert_row]

/-- Deleting the user's rows commutes with a prior replace for the same
user: the delete step erases whatever the earlier replace inserted. -/
theorem cleared_replace (store : List StoreRow) (u : Nat)
    (X : List FinalArticle) :
    (_replace_user_curated_articles store u X).filter (fun r => r.user_id ≠ u)
      = store.filter (fun r => r.user_id ≠ u) := by
  simp only [_replace_user_curated_articles]
  have hself : (store.filter (fun r => r.user_id ≠ u)).filter
      (fun r => r.user_id ≠ u) = store.filter (fun r => r.user_id ≠ u) := by
    apply List.filter_eq_self.mpr
    intro r hr
    exact (List.mem_filter.mp hr).2
  by_cases hX : X.isEmpty
  · have he : X = [] := by simpa using hX
    subst he
    simp [hself]
  · simp only [hX, Bool.false_eq_true, if_false]
    rw [List.filter_append, hself]
    have : (X.map (_insert_row u)).filter (fun r => r.user_id ≠ u) = [] := by
      apply List.filter_eq_nil_iff.mpr
      intro r hr
      obtain ⟨a, _, rfl⟩ := List.mem_map.mp hr
      simp [_insert_row]
    rw [this, List.append_nil]

/-- C9: replacing a user's curated set with A and then with B leaves
exactly (the row formatting of) B persisted for that user — and in fact
the whole store ends up identical to replacing with B alone, so nothing
of A survives, union or otherwise. -/
theorem C9_replace_semantics (store : List StoreRow) (u : Nat)
    (A B : List FinalArticle) :
    rowsFor (_replace_user_curated_articles
        (_replace_user_curated_articles store u A) u B) u
      = B.map (_insert_row u)
    ∧ _replace_user_curated_articles
        (_replace_user_curated_articles store u A) u B
      = _replace_user_curated_articles store u B := by
  refine ⟨rowsFor_replace _ u B, ?_⟩
  conv_lhs => rw [_replace_user_curated_articles]
  conv_rhs => rw [_replace_user_curated_articles]
  rw [cleared_replace]

/-! ## Claim C10 — loading never fails -/

/-- C10: the curated-feed read path absorbs every internal failure: an
unparseable user id makes the load return `[]`, any exception in the
handler yields `[]`, and that response is indistinguishable from the one
a user with no curated articles receives. -/
theorem C10_load_failure_empty (store : List StoreRow) (e : String) :
    _load_user_curated_articles none store = []
    ∧ get_curated_news (Except.error e) = []
    ∧ get_curated_news (Except.error e) = get_curated_news (Except.ok []) :=
  ⟨rfl, rfl, rfl⟩

end Daily

